import Mathlib

/-!
Verification of the live-subtitles real-time audio pipeline and streaming
recognition orchestration, as a shallow embedding of the Rust sources
(src-tauri/src/audio_wasapi.rs, lib.rs, online_asr.rs, config.rs).

Audio samples (f32 in the source) are modelled as rationals: every property
verified here is structural (counts, ordering, exact zero literals, buffering,
emission and state-machine laws) and involves no floating-point rounding.
The external block resampler (rubato FftFixedIn) and the external ASR engine
(sherpa-onnx) are black boxes, modelled as abstract stateful step functions.
-/

namespace LiveSubtitles

/-! ## Chunker: the drain loop over the accumulation buffer

audio_wasapi.rs, capture loop: after each poll appends mono samples to
audio_buffer, the inner loop runs
  while audio_buffer.len() >= chunk_size
    let chunk = audio_buffer.drain(..chunk_size).collect()
drainChunks returns the list of drained chunks in order together with the
buffer that remains afterwards. -/
def drainChunks {α : Type} (n : Nat) (buf : List α) : List (List α) × List α :=
  if _h : 0 < n ∧ n ≤ buf.length then
    let rest := drainChunks n (buf.drop n)
    (buf.take n :: rest.1, rest.2)
  else ([], buf)
termination_by buf.length
decreasing_by
  simp only [List.length_drop]
  omega

/-! ## Rate converter stage

audio_wasapi.rs, capture loop lines 251-277 (identical in the microphone
worker): each drained chunk is either passed through unchanged (source rate ==
target rate: no resampler) or fed to the external block resampler.  rubato's
FftFixedIn is external code, modelled as an abstract stateful block transform:
framesNeeded is its fixed per-call input size (input_frames_next(), the
chunk size 2048 passed to FftFixedIn::new), and step may fail, in which case
the code logs and drops the chunk. -/
structure Resampler (σ : Type) where
  framesNeeded : Nat
  step : σ → List ℚ → Except String (List ℚ) × σ

/-- One drained chunk through the converter stage.  none means the chunk is
skipped: too few frames for one converter call, or a converter error — both
are dropped with continue in the source. -/
def convertChunk {σ : Type} (rOpt : Option (Resampler σ)) (s : σ) (chunk : List ℚ) :
    Option (List ℚ) × σ :=
  match rOpt with
  | none => (some chunk, s)
  | some r =>
    if chunk.length < r.framesNeeded then (none, s)
    else
      match r.step s (chunk.take r.framesNeeded) with
      | (.ok out, s') => (some out, s')
      | (.error _, s') => (none, s')

/-- The drain-convert-send loop body: while the accumulation buffer holds at
least chunk_size samples, drain one chunk, convert it, and send the result.
Returns the sent chunks in order, the remaining buffer, and the converter
state.  The channel send is modelled as always delivered: a closed receiver
only ends the session and is outside the properties verified here. -/
def sendLoop {σ : Type} (n : Nat) (rOpt : Option (Resampler σ)) (buf : List ℚ) (s : σ) :
    List (List ℚ) × List ℚ × σ :=
  if _h : 0 < n ∧ n ≤ buf.length then
    match convertChunk rOpt s (buf.take n) with
    | (some out, s') =>
      let r := sendLoop n rOpt (buf.drop n) s'
      (out :: r.1, r.2.1, r.2.2)
    | (none, s') => sendLoop n rOpt (buf.drop n) s'
  else ([], buf, s)
termination_by buf.length
decreasing_by
  all_goals simp only [List.length_drop]
  all_goals omega

/-- The converter stage as a fold over an explicit list of drained chunks. -/
def convertBlocks {σ : Type} (rOpt : Option (Resampler σ)) :
    List (List ℚ) → σ → List (List ℚ) × σ
  | [], s => ([], s)
  | c :: cs, s =>
    match convertChunk rOpt s c with
    | (some out, s') =>
      let r := convertBlocks rOpt cs s'
      (out :: r.1, r.2)
    | (none, s') => convertBlocks rOpt cs s'

/-- One poll appends the freshly mixed mono samples to the accumulation
buffer and runs the drain-convert-send loop; feedPolls iterates this over a
whole sequence of polls, collecting all sent chunks in order. -/
def feedPolls {σ : Type} (n : Nat) (rOpt : Option (Resampler σ)) :
    List (List ℚ) → List ℚ → σ → List (List ℚ) × List ℚ × σ
  | [], buf, s => ([], buf, s)
  | mono :: rest, buf, s =>
    let r1 := sendLoop n rOpt (buf ++ mono) s
    let r2 := feedPolls n rOpt rest r1.2.1 r1.2.2
    (r1.1 ++ r2.1, r2.2.1, r2.2.2)


/-! ## Device-buffer processing: sample extraction and mono mixing

audio_wasapi.rs, the inner GetBuffer loop (lines 196-277 of the loopback
worker; the microphone worker's loop, lines 408-492, is the same code).
One device buffer carries numFrames frames; its memory is read either as
32-bit floats or as 16-bit integers depending on the mix format, and the
AUDCLNT_BUFFERFLAGS_SILENT flag is modelled by the silent field. -/
structure MixFormat where
  sampleRate : Nat
  channels : Nat
  bitsPerSample : Nat
deriving DecidableEq

/-- One captured device buffer: frame count and silent flag as reported by
GetBuffer, and the raw memory viewed as f32 (mem32) or i16 (mem16) samples;
from_raw_parts reads exactly numFrames * channels elements of the chosen
view. -/
structure DeviceBuffer where
  numFrames : Nat
  silent : Bool
  mem32 : Nat → ℚ
  mem16 : Nat → Int

/-- 16-bit integer sample scaled to float: s as f32 / 32768.0. -/
def i16ToF32 (s : Int) : ℚ :=
  (s : ℚ) / 32768

/-- Sample extraction by bit depth: 32-bit float buffers are copied as is,
16-bit integer buffers are scaled, and any other format yields the empty
vector. -/
def extractSamples (fmt : MixFormat) (b : DeviceBuffer) : List ℚ :=
  if fmt.bitsPerSample = 32 then
    (List.range (b.numFrames * fmt.channels)).map b.mem32
  else if fmt.bitsPerSample = 16 then
    (List.range (b.numFrames * fmt.channels)).map (fun i => i16ToF32 (b.mem16 i))
  else []

/-- Rust slice::chunks c: successive sub-slices of length c in order, the
last one possibly shorter. -/
def sliceChunks {α : Type} (c : Nat) (l : List α) : List (List α) :=
  (drainChunks c l).1 ++
    (if (drainChunks c l).2.isEmpty then [] else [(drainChunks c l).2])

/-- Mono mixing: a silent buffer becomes numFrames explicit zeros without
reading the memory view; otherwise each frame of channels interleaved
samples is averaged. -/
def toMono (channels : Nat) (silent : Bool) (numFrames : Nat) (samples : List ℚ) :
    List ℚ :=
  if silent then List.replicate numFrames 0
  else (sliceChunks channels samples).map (fun frame => frame.sum / (channels : ℚ))

/-- The accumulation chunk size chosen by the capture workers: 2048 when the
source rate differs from the target rate (the resampler's fixed input size),
1024 otherwise. -/
def chunkSizeFor (sourceRate targetRate : Nat) : Nat :=
  if sourceRate ≠ targetRate then 2048 else 1024

/-- Everything one GetBuffer iteration produces: the mono samples appended
for this buffer ([] when the buffer is skipped), whether ReleaseBuffer ran,
the chunks sent downstream, and the accumulation buffer and converter state
afterwards. -/
structure BufferOutcome (σ : Type) where
  monoSamples : List ℚ
  released : Bool
  sent : List (List ℚ)
  audioBuffer : List ℚ
  resampler : σ

/-- One device buffer through the capture loop body: extract samples by
format, release the device buffer, skip the buffer when no samples were
produced, otherwise mix to mono, append to the accumulation buffer and run
the drain-convert-send loop. -/
def processDeviceBuffer {σ : Type} (fmt : MixFormat) (chunkSize : Nat)
    (rOpt : Option (Resampler σ)) (b : DeviceBuffer) (audioBuffer : List ℚ)
    (s : σ) : BufferOutcome σ :=
  let samples := extractSamples fmt b
  if samples.isEmpty then
    ⟨[], true, [], audioBuffer, s⟩
  else
    let mono := toMono fmt.channels b.silent b.numFrames samples
    let r := sendLoop chunkSize rOpt (audioBuffer ++ mono) s
    ⟨mono, true, r.1, r.2.1, r.2.2⟩

/-! ## Recognizer result (online_asr.rs)

SherpaOnnxGetOnlineStreamResult may return a null result pointer, and a
non-null result may carry a null text pointer; both are modelled with
Option. -/
structure EngineResult where
  text : Option String
deriving DecidableEq

/-- OnlineRecognizer::get_result: a null result pointer yields the empty
string; a null text pointer inside a result yields the empty string;
otherwise the text is converted (to_string_lossy) and returned. -/
def OnlineRecognizer.get_result (res : Option EngineResult) : String :=
  match res with
  | none => ""
  | some r =>
    match r.text with
    | none => ""
    | some t => t

/-! ## Streaming recognition orchestrator (lib.rs, recognition worker loop)

The wall-clock timestamp of SubtitleEvent::new is real time and is omitted
from the model; the claims concern text and is_final only. -/
structure SubtitleEvent where
  text : String
  isFinal : Bool
deriving DecidableEq

/-- One recognizer.process(samples) result: the current hypothesis text and
the endpoint flag. -/
structure RecStep where
  text : String
  isEndpoint : Bool
deriving DecidableEq

/-- Orchestrator-side per-utterance state: last_text and, as an explicit
effect counter, the number of recognizer.reset() calls performed. -/
structure OrchState where
  lastText : String
  resets : Nat
deriving DecidableEq

/-- The text-emission phase of the loop body (lib.rs 393-398): if the
hypothesis text is non-empty and differs from last_text, emit one non-final
event with that text and update last_text. -/
def emitNonFinal (text lastText : String) : List SubtitleEvent × String :=
  if text ≠ "" ∧ text ≠ lastText then ([⟨text, false⟩], text)
  else ([], lastText)

/-- The full loop body for one processed chunk (lib.rs 390-411): the
text-emission phase, then the endpoint handling: on endpoint with non-empty
last_text, emit one final event carrying last_text, reset the recognizer and
clear last_text; on endpoint with empty last_text, only reset. -/
def orchStep (r : RecStep) (st : OrchState) : List SubtitleEvent × OrchState :=
  let p := emitNonFinal r.text st.lastText
  if r.isEndpoint ∧ p.2 ≠ "" then
    (p.1 ++ [⟨p.2, true⟩], ⟨"", st.resets + 1⟩)
  else if r.isEndpoint then
    (p.1, ⟨p.2, st.resets + 1⟩)
  else
    (p.1, ⟨p.2, st.resets⟩)

/-! ## Lifecycle: AudioCapture and the start/stop commands

audio_wasapi.rs AudioCapture plus lib.rs start_recognition /
stop_recognition.  The outcomes of the fallible WASAPI calls made on the
capture worker thread are the environment; the error strings carried are the
formatted inner errors. -/
inductive CaptureMode
  | SystemAudio
  | Microphone
deriving DecidableEq

/-- Map the error of a fallible step, as the source's map_err with a
format string does. -/
def mapErr {α : Type} (f : String → String) : Except String α → Except String α
  | .ok a => .ok a
  | .error e => .error (f e)

instance {ε α : Type} [DecidableEq ε] [DecidableEq α] : DecidableEq (Except ε α) :=
  fun a b =>
    match a, b with
    | .ok x, .ok y => if h : x = y then isTrue (by rw [h]) else isFalse (by simp [h])
    | .error x, .error y => if h : x = y then isTrue (by rw [h]) else isFalse (by simp [h])
    | .ok _, .error _ => isFalse (by simp)
    | .error _, .ok _ => isFalse (by simp)

/-- Outcomes of the WASAPI calls made by capture_loopback_audio, in source
order. -/
structure LoopbackEnv where
  comInit : Except String Unit
  createEnumerator : Except String Unit
  defaultRenderEndpoint : Except String Unit
  activate : Except String Unit
  getMixFormat : Except String MixFormat
  initClient : Except String Unit
  getService : Except String Unit
  startClient : Except String Unit
  resamplerNew : Except String Unit
deriving DecidableEq

/-- Outcomes of the WASAPI calls made by capture_microphone_audio: the
console-role endpoint with a communications-role fallback, and the NOPERSIST
initialization with a no-flags fallback. -/
structure MicEnv where
  comInit : Except String Unit
  createEnumerator : Except String Unit
  defaultConsole : Except String Unit
  defaultComms : Except String Unit
  activate : Except String Unit
  getMixFormat : Except String MixFormat
  initNoPersist : Except String Unit
  initNoFlags : Except String Unit
  getService : Except String Unit
  startClient : Except String Unit
  resamplerNew : Except String Unit
deriving DecidableEq

structure CaptureEnv where
  loopback : LoopbackEnv
  mic : MicEnv
deriving DecidableEq

/-- The device-acquisition and stream-start phase of capture_loopback_audio
(lines 110-174): every failure aborts the worker with the formatted error;
on success the capture loop runs with the obtained mix format.  The
resampler is created only when the source rate differs from the target. -/
def captureLoopbackAcquire (env : LoopbackEnv) (targetSampleRate : Nat) :
    Except String MixFormat := do
  let _ ← mapErr (fun e => "Failed to initialize COM: " ++ e) env.comInit
  let _ ← mapErr (fun e => "Failed to create device enumerator: " ++ e) env.createEnumerator
  let _ ← mapErr (fun e => "Failed to get default audio endpoint: " ++ e)
    env.defaultRenderEndpoint
  let _ ← mapErr (fun e => "Failed to activate audio client: " ++ e) env.activate
  let fmt ← mapErr (fun e => "Failed to get mix format: " ++ e) env.getMixFormat
  let _ ← mapErr (fun e => "Failed to initialize audio client: " ++ e) env.initClient
  let _ ← mapErr (fun e => "Failed to get capture client: " ++ e) env.getService
  let _ ← mapErr (fun e => "Failed to start audio client: " ++ e) env.startClient
  if fmt.sampleRate ≠ targetSampleRate then
    let _ ← mapErr (fun e => "Failed to create resampler: " ++ e) env.resamplerNew
  pure fmt

/-- The acquisition phase of capture_microphone_audio (lines 296-395), with
the two documented fallbacks. -/
def captureMicAcquire (env : MicEnv) (targetSampleRate : Nat) :
    Except String MixFormat := do
  let _ ← mapErr (fun e => "Failed to initialize COM: " ++ e) env.comInit
  let _ ← mapErr (fun e => "Failed to create device enumerator: " ++ e) env.createEnumerator
  let _ ← mapErr (fun e => "Failed to get default capture endpoint: " ++ e)
    (match env.defaultConsole with
      | .ok u => .ok u
      | .error _ => env.defaultComms)
  let _ ← mapErr (fun e => "Failed to activate audio client: " ++ e) env.activate
  let fmt ← mapErr (fun e => "Failed to get mix format: " ++ e) env.getMixFormat
  let _ ← (match env.initNoPersist with
      | .ok u => Except.ok u
      | .error _ => mapErr (fun e => "Failed to initialize audio client: " ++ e) env.initNoFlags)
  let _ ← mapErr (fun e => "Failed to get capture client: " ++ e) env.getService
  let _ ← mapErr (fun e => "Failed to start audio client: " ++ e) env.startClient
  if fmt.sampleRate ≠ targetSampleRate then
    let _ ← mapErr (fun e => "Failed to create resampler: " ++ e) env.resamplerNew
  pure fmt

/-- The final result of the spawned capture worker for the given mode: its
acquisition error, or Ok(()) after the capture loop ends. -/
def workerResult (mode : CaptureMode) (env : CaptureEnv) (targetRate : Nat) :
    Except String Unit :=
  match mode with
  | .SystemAudio => (captureLoopbackAcquire env.loopback targetRate).map fun _ => ()
  | .Microphone => (captureMicAcquire env.mic targetRate).map fun _ => ()

/-- AudioCapture (audio_wasapi.rs): the shared stop flag, the capture worker
thread handle (holding the result the spawned worker will produce), and the
construction parameters. -/
structure AudioCaptureM where
  stopFlag : Bool
  captureThread : Option (Except String Unit)
  targetSampleRate : Nat
  captureMode : CaptureMode
  deviceId : Option String
deriving DecidableEq

def AudioCaptureM.newWithDevice (targetSampleRate : Nat) (captureMode : CaptureMode)
    (deviceId : Option String) : AudioCaptureM :=
  ⟨false, none, targetSampleRate, captureMode, deviceId⟩

def AudioCaptureM.new (targetSampleRate : Nat) : AudioCaptureM :=
  AudioCaptureM.newWithDevice targetSampleRate CaptureMode.SystemAudio none

/-- AudioCapture::start: reset the stop flag, spawn the capture worker (whose
eventual result is recorded in captureThread; any error there is only
logged), and return Ok with the receiving end of the channel (modelled as the
unit value). -/
def AudioCaptureM.start (c : AudioCaptureM) (env : CaptureEnv) :
    AudioCaptureM × Except String Unit :=
  ({ c with
      stopFlag := false,
      captureThread := some (workerResult c.captureMode env c.targetSampleRate) },
    Except.ok ())

/-- AudioCapture::stop: set the stop flag, then take and join the capture
thread if there is one; the returned list holds the results joined. -/
def AudioCaptureM.stop (c : AudioCaptureM) :
    AudioCaptureM × List (Except String Unit) :=
  match c.captureThread with
  | some w => ({ c with stopFlag := true, captureThread := none }, [w])
  | none => ({ c with stopFlag := true }, [])

/-- Modelled from the spec: the audio-source selection in the app
configuration.  lib.rs reads config.audio_source_type (an AudioSourceType
with variants SystemAudio and Microphone) and config.audio_device_id, but
the src snapshot of config.rs does not declare them; the spec describes the
capture-mode selection as a SystemAudio | Microphone variant with an
optional device identifier. -/
inductive AudioSourceType
  | SystemAudio
  | Microphone
deriving DecidableEq

inductive AsrModelType
  | Transducer (encoder decoder joiner : String)
  | Paraformer (model : String)
  | Whisper (encoder decoder : String)
  | SenseVoice (model : String)
deriving DecidableEq

structure AsrModelConfig where
  id : String
  name : String
  modelDir : String
  modelType : AsrModelType
  tokens : String
  languages : List String
  sampleRate : Nat
  numThreads : Int
deriving DecidableEq

/-- AppConfig (config.rs) together with the two spec-modelled audio-source
fields read by start_recognition. -/
structure AppConfig where
  currentModelId : String
  models : List AsrModelConfig
  audioSourceType : AudioSourceType
  audioDeviceId : String
deriving DecidableEq

/-- AppConfig::current_model: the first configured model whose id equals
current_model_id. -/
def AppConfig.currentModel (c : AppConfig) : Option AsrModelConfig :=
  c.models.find? (fun m => m.id == c.currentModelId)

/-- AppState (lib.rs): configuration, the stored audio capture, and the
running flag (the models directory is a filesystem path and is outside the
model). -/
structure AppState where
  config : AppConfig
  audioCapture : Option AudioCaptureM
  isRunning : Bool
deriving DecidableEq

/-- start_recognition (lib.rs 218-429), its synchronous part: reject when
already running; require a configured current model; build the capture for
the configured mode and device; start it (which always succeeds, see
AudioCaptureM.start); store the capture and set the running flag.  The
recognition worker spawned afterwards is modelled by orchStep. -/
def start_recognition (st : AppState) (env : CaptureEnv) :
    AppState × Except String Unit :=
  if st.isRunning then
    (st, Except.error "Recognition is already running")
  else
    match st.config.currentModel with
    | none => (st, Except.error "No ASR model configured")
    | some asrConfig =>
      let modeDev : CaptureMode × Option String :=
        match st.config.audioSourceType with
        | .SystemAudio => (CaptureMode.SystemAudio, none)
        | .Microphone =>
          (CaptureMode.Microphone,
            if st.config.audioDeviceId = "" then none
            else some st.config.audioDeviceId)
      let cap := AudioCaptureM.newWithDevice asrConfig.sampleRate modeDev.1 modeDev.2
      match cap.start env with
      | (started, .ok _) =>
        ({ st with audioCapture := some started, isRunning := true }, Except.ok ())
      | (_, .error e) => (st, Except.error ("Failed to start audio capture: " ++ e))

/-- stop_recognition (lib.rs 433-449): clear the running flag, then take the
stored capture out of the state and stop it (joining its worker) when
present; always returns Ok. -/
def stop_recognition (st : AppState) : AppState × Except String Unit :=
  let st1 : AppState := { st with isRunning := false }
  match st1.audioCapture with
  | some cap =>
    let _joined := cap.stop
    ({ st1 with audioCapture := none }, Except.ok ())
  | none => (st1, Except.ok ())

/-! ## Concrete instances used by witnesses and counterexamples -/

/-- An 8-bit mix format: unsupported by the sample-extraction code. -/
def fmt8bit : MixFormat := ⟨48000, 2, 8⟩

/-- A 16-bit stereo mix format. -/
def fmt16bit : MixFormat := ⟨48000, 2, 16⟩

/-- A one-frame device buffer with the silent flag set. -/
def silentBuf1 : DeviceBuffer := ⟨1, true, fun _ => 0, fun _ => 0⟩

/-- A two-frame silent buffer whose memory holds non-zero garbage, as the
device contract permits for silent buffers. -/
def silentBuf2 : DeviceBuffer := ⟨2, true, fun _ => 7, fun _ => 99⟩

/-- A toy converter with fixed input size 2, summing each block and counting
calls in its state. -/
def sumResampler : Resampler Nat := ⟨2, fun s c => (Except.ok [c.sum], s + 1)⟩

/-- Three polls of mono samples of varying sizes. -/
def pollsExample : List (List ℚ) := [[1], [2, 3], [4, 5]]

/-- A small accumulation buffer. -/
def chunkBufExample : List ℚ := [5, 6, 7]

/-- The default model of AppConfig::default (config.rs). -/
def defaultModel : AsrModelConfig :=
  ⟨"default", "默认模型", "",
    AsrModelType.Transducer "encoder.onnx" "decoder.onnx" "joiner.onnx",
    "tokens.txt", ["zh", "en"], 16000, 2⟩

/-- The default configuration, capturing system audio on the default
device. -/
def defaultConfig : AppConfig :=
  ⟨"default", [defaultModel], AudioSourceType.SystemAudio, ""⟩

/-- An app state with no session running and no stored capture. -/
def idleState : AppState := ⟨defaultConfig, none, false⟩

/-- An app state already marked running. -/
def runningState : AppState := ⟨defaultConfig, none, true⟩

/-- A fresh capture that was never started: no worker thread. -/
def capNoThread : AudioCaptureM := ⟨false, none, 16000, CaptureMode.SystemAudio, none⟩

/-- A microphone environment in which every device call succeeds. -/
def micEnvOk : MicEnv :=
  ⟨.ok (), .ok (), .ok (), .ok (), .ok (), .ok ⟨16000, 1, 16⟩, .ok (), .ok (),
    .ok (), .ok (), .ok ()⟩

/-- A capture environment in which every device call succeeds. -/
def envAllOk : CaptureEnv :=
  ⟨⟨.ok (), .ok (), .ok (), .ok (), .ok ⟨48000, 2, 32⟩, .ok (), .ok (), .ok (),
      .ok ()⟩,
    micEnvOk⟩

/-- A capture environment in which acquiring the default render endpoint
fails. -/
def envDeviceFail : CaptureEnv :=
  ⟨⟨.ok (), .ok (), .error "no device", .ok (), .ok ⟨48000, 2, 32⟩, .ok (),
      .ok (), .ok (), .ok ()⟩,
    micEnvOk⟩

/-! ## Helper lemmas -/

theorem drainChunks_of_not (n : Nat) {α : Type} (buf : List α)
    (h : ¬(0 < n ∧ n ≤ buf.length)) : drainChunks n buf = ([], buf) := by
  rw [drainChunks]
  simp [h]

theorem drainChunks_of_le (n : Nat) {α : Type} (buf : List α)
    (h0 : 0 < n) (h : n ≤ buf.length) :
    drainChunks n buf =
      ((buf.take n) :: (drainChunks n (buf.drop n)).1, (drainChunks n (buf.drop n)).2) := by
  rw [drainChunks]
  simp [h0, h]

/-- Every chunk drained by the loop has exactly the configured size. -/
theorem drainChunks_length (n : Nat) {α : Type} (buf : List α) :
    ∀ c ∈ (drainChunks n buf).1, c.length = n := by
  induction buf using drainChunks.induct n with
  | case1 buf h ih =>
    rw [drainChunks_of_le n buf h.1 h.2]
    intro c hc
    rcases List.mem_cons.mp hc with hc | hc
    · subst hc
      exact List.length_take_of_le h.2
    · exact ih c hc
  | case2 buf h =>
    rw [drainChunks_of_not n buf h]
    intro c hc
    exact absurd hc (List.not_mem_nil c)

/-- The drained chunks followed by the remaining buffer reassemble the input:
nothing is lost, duplicated or reordered. -/
theorem drainChunks_flatten (n : Nat) {α : Type} (buf : List α) :
    (drainChunks n buf).1.flatten ++ (drainChunks n buf).2 = buf := by
  induction buf using drainChunks.induct n with
  | case1 buf h ih =>
    rw [drainChunks_of_le n buf h.1 h.2]
    simp only [List.flatten_cons, List.append_assoc]
    rw [ih, List.take_append_drop]
  | case2 buf h =>
    rw [drainChunks_of_not n buf h]
    simp

/-- After draining, the remaining buffer is strictly shorter than one chunk. -/
theorem drainChunks_rem_lt (n : Nat) {α : Type} (buf : List α) (h0 : 0 < n) :
    (drainChunks n buf).2.length < n := by
  induction buf using drainChunks.induct n with
  | case1 buf h ih =>
    rw [drainChunks_of_le n buf h.1 h.2]
    exact ih
  | case2 buf h =>
    rw [drainChunks_of_not n buf h]
    simp only []
    omega

/-- Chunk-boundary composition: draining buf ++ m yields the chunks of buf
followed by the chunks of (remainder of buf) ++ m, with the latter's remainder.
This is the carry-over law behind the rate-conversion correctness property. -/
theorem drainChunks_append (n : Nat) {α : Type} (buf m : List α) :
    drainChunks n (buf ++ m) =
      ((drainChunks n buf).1 ++ (drainChunks n ((drainChunks n buf).2 ++ m)).1,
        (drainChunks n ((drainChunks n buf).2 ++ m)).2) := by
  induction buf using drainChunks.induct n with
  | case1 buf h ih =>
    have htake : (buf ++ m).take n = buf.take n := List.take_append_of_le_length h.2
    have hdrop : (buf ++ m).drop n = buf.drop n ++ m := List.drop_append_of_le_length h.2
    have hlen : n ≤ (buf ++ m).length := by
      simp only [List.length_append]
      omega
    rw [drainChunks_of_le n (buf ++ m) h.1 hlen, htake, hdrop, ih,
      drainChunks_of_le n buf h.1 h.2]
    simp
  | case2 buf h =>
    rw [drainChunks_of_not n buf h]
    simp

theorem sendLoop_of_not {σ : Type} (n : Nat) (rOpt : Option (Resampler σ))
    (buf : List ℚ) (s : σ) (h : ¬(0 < n ∧ n ≤ buf.length)) :
    sendLoop n rOpt buf s = ([], buf, s) := by
  rw [sendLoop]
  simp [h]

/-- The send loop is the converter fold over the drained chunks, with the
drain remainder as the new buffer. -/
theorem sendLoop_eq_drain {σ : Type} (n : Nat) (rOpt : Option (Resampler σ))
    (buf : List ℚ) (s : σ) :
    sendLoop n rOpt buf s =
      ((convertBlocks rOpt (drainChunks n buf).1 s).1, (drainChunks n buf).2,
        (convertBlocks rOpt (drainChunks n buf).1 s).2) := by
  induction buf, s using sendLoop.induct n rOpt with
  | case1 buf s h out s' hcc ih =>
    rw [sendLoop, drainChunks_of_le n buf h.1 h.2]
    simp only [h, dite_true, convertBlocks, hcc, ih]
    simp
  | case2 buf s h s' hcc ih =>
    rw [sendLoop, drainChunks_of_le n buf h.1 h.2]
    simp only [h, dite_true, convertBlocks, hcc, ih]
    simp
  | case3 buf s h =>
    rw [sendLoop_of_not n rOpt buf s h, drainChunks_of_not n buf h]
    simp [convertBlocks]

/-- Folding the converter over appended chunk lists composes. -/
theorem convertBlocks_append {σ : Type} (rOpt : Option (Resampler σ))
    (bs1 bs2 : List (List ℚ)) (s : σ) :
    convertBlocks rOpt (bs1 ++ bs2) s =
      ((convertBlocks rOpt bs1 s).1 ++
          (convertBlocks rOpt bs2 (convertBlocks rOpt bs1 s).2).1,
        (convertBlocks rOpt bs2 (convertBlocks rOpt bs1 s).2).2) := by
  induction bs1 generalizing s with
  | nil => simp [convertBlocks]
  | cons c cs ih =>
    simp only [List.cons_append, convertBlocks]
    rcases hcc : convertChunk rOpt s c with ⟨o, s'⟩
    cases o with
    | some out => simp [convertBlocks, hcc, ih]
    | none => simp [convertBlocks, hcc, ih]

/-- Feeding the buffer piecewise composes: the chunks drained and sent from
buf, then those of the carried remainder followed by m, are exactly those of
buf ++ m, with the same converter states threaded through. -/
theorem sendLoop_append {σ : Type} (n : Nat) (rOpt : Option (Resampler σ))
    (buf m : List ℚ) (s : σ) :
    sendLoop n rOpt (buf ++ m) s =
      ((sendLoop n rOpt buf s).1 ++
          (sendLoop n rOpt ((sendLoop n rOpt buf s).2.1 ++ m)
            (sendLoop n rOpt buf s).2.2).1,
        (sendLoop n rOpt ((sendLoop n rOpt buf s).2.1 ++ m)
            (sendLoop n rOpt buf s).2.2).2) := by
  rw [sendLoop_eq_drain n rOpt (buf ++ m) s, sendLoop_eq_drain n rOpt buf s,
    drainChunks_append n buf m]
  rw [sendLoop_eq_drain n rOpt ((drainChunks n buf).2 ++ m)
    (convertBlocks rOpt (drainChunks n buf).1 s).2]
  rw [convertBlocks_append]

/-- Feeding poll-by-poll equals feeding the whole concatenation at once,
provided the starting buffer is in its post-drain state (shorter than one
chunk): chunk boundaries are invisible to the converter stage. -/
theorem feedPolls_eq_concat {σ : Type} (n : Nat) (rOpt : Option (Resampler σ))
    (ms : List (List ℚ)) (buf : List ℚ) (s : σ) (hbuf : buf.length < n) :
    feedPolls n rOpt ms buf s = sendLoop n rOpt (buf ++ ms.flatten) s := by
  induction ms generalizing buf s with
  | nil =>
    rw [feedPolls, List.flatten_nil, List.append_nil,
      sendLoop_of_not n rOpt buf s (by omega)]
  | cons mono rest ih =>
    rw [feedPolls, List.flatten_cons, ← List.append_assoc,
      sendLoop_append n rOpt (buf ++ mono) rest.flatten s]
    have hrem : (sendLoop n rOpt (buf ++ mono) s).2.1.length < n := by
      rw [sendLoop_eq_drain]
      exact drainChunks_rem_lt n (buf ++ mono) (by omega)
    rw [ih _ _ hrem]



/-! ## Claim theorems -/

/-- Claim C9: OnlineRecognizer::get_result is total at the public interface
and never dereferences null: a null engine result pointer and a null text
pointer inside a result both yield the empty string, and a present text is
returned as is. -/
theorem get_result_null_safe :
    (∀ res : Option EngineResult, res = none →
      OnlineRecognizer.get_result res = "") ∧
    (∀ r : EngineResult, r.text = none →
      OnlineRecognizer.get_result (some r) = "") ∧
    (∀ t : String, OnlineRecognizer.get_result (some ⟨some t⟩) = t) := by
  refine ⟨?_, ?_, ?_⟩
  · intro res h
    rw [h]
    rfl
  · intro r h
    cases r
    simp_all [OnlineRecognizer.get_result]
  · intro t
    rfl

/-- Claim C9 witness: get_result at the two null inputs. -/
theorem get_result_null_safe_witness :
    OnlineRecognizer.get_result none = "" ∧
    OnlineRecognizer.get_result (some ⟨none⟩) = "" :=
  ⟨get_result_null_safe.1 none rfl, get_result_null_safe.2.1 ⟨none⟩ rfl⟩

/-- Claim C10: a device buffer in a format that is neither 16-bit int nor
32-bit float yields an empty sample vector; the buffer is released and
skipped — nothing is mixed, the accumulation buffer and converter state are
unchanged, and no chunk is sent downstream (the capture loop simply
continues; the model function is total, so no panic). -/
theorem unsupported_format_skips_buffer {σ : Type} (fmt : MixFormat)
    (b : DeviceBuffer) (chunkSize : Nat) (rOpt : Option (Resampler σ))
    (audioBuffer : List ℚ) (s : σ) (h16 : fmt.bitsPerSample ≠ 16)
    (h32 : fmt.bitsPerSample ≠ 32) :
    processDeviceBuffer fmt chunkSize rOpt b audioBuffer s =
      ⟨[], true, [], audioBuffer, s⟩ := by
  unfold processDeviceBuffer
  simp [extractSamples, h16, h32]

/-- Claim C10 witness: an 8-bit buffer is skipped whole. -/
theorem unsupported_format_skips_buffer_witness :
    (fmt8bit.bitsPerSample ≠ 16 ∧ fmt8bit.bitsPerSample ≠ 32) ∧
    processDeviceBuffer fmt8bit 1024 (none : Option (Resampler Unit))
        silentBuf1 [3] () = ⟨[], true, [], [3], ()⟩ :=
  ⟨⟨by decide, by decide⟩,
    unsupported_format_skips_buffer fmt8bit silentBuf1 1024 none [3] ()
      (by decide) (by decide)⟩

/-- Claim C6 counterexample: a silent device buffer in an unsupported (8-bit)
sample format carrying one frame produces no mono samples at all, so the
produced count (0) differs from the buffer's frame count (1) — the claim as
stated fails for buffers whose format the extraction step rejects. -/
theorem silent_unsupported_buffer_count_mismatch :
    (processDeviceBuffer fmt8bit 2048 (none : Option (Resampler Unit))
        silentBuf1 [] ()).monoSamples.length ≠ silentBuf1.numFrames := by
  decide

/-- Claim C6 (amended): for every captured device buffer whose silent flag is
set and whose format is supported (16-bit int or 32-bit float) with at least
one channel, the mono samples produced are exactly numFrames zeros —
regardless of the buffer memory contents. -/
theorem silent_buffer_yields_zeros {σ : Type} (fmt : MixFormat)
    (b : DeviceBuffer) (chunkSize : Nat) (rOpt : Option (Resampler σ))
    (audioBuffer : List ℚ) (s : σ)
    (hbits : fmt.bitsPerSample = 16 ∨ fmt.bitsPerSample = 32)
    (hch : 0 < fmt.channels) (hsil : b.silent = true) :
    (processDeviceBuffer fmt chunkSize rOpt b audioBuffer s).monoSamples =
      List.replicate b.numFrames 0 := by
  have hlen : (extractSamples fmt b).length = b.numFrames * fmt.channels := by
    rcases hbits with h | h
    · have h32 : fmt.bitsPerSample ≠ 32 := by omega
      simp [extractSamples, h, h32]
    · simp [extractSamples, h]
  unfold processDeviceBuffer
  by_cases hnf : b.numFrames = 0
  · have hemp : (extractSamples fmt b).isEmpty = true := by
      rw [List.isEmpty_iff_length_eq_zero, hlen, hnf]
      ring
    simp [hemp, hnf]
  · have hne : (extractSamples fmt b).isEmpty = false := by
      rcases h : (extractSamples fmt b) with _ | ⟨a, l⟩
      · exfalso
        rw [h] at hlen
        simp at hlen
        omega
      · rfl
    simp [hne, toMono, hsil]

/-- Claim C6 witness: a silent 16-bit stereo buffer with non-zero garbage in
memory still yields exactly two zero samples. -/
theorem silent_buffer_yields_zeros_witness :
    ((fmt16bit.bitsPerSample = 16 ∨ fmt16bit.bitsPerSample = 32) ∧
      0 < fmt16bit.channels ∧ silentBuf2.silent = true) ∧
    (processDeviceBuffer fmt16bit 4 (none : Option (Resampler Unit))
        silentBuf2 [] ()).monoSamples = List.replicate silentBuf2.numFrames 0 :=
  ⟨⟨Or.inl rfl, by decide, rfl⟩,
    silent_buffer_yields_zeros fmt16bit silentBuf2 4 none [] ()
      (Or.inl rfl) (by decide) rfl⟩

/-- Claim C4: a second start_recognition while a session is marked running
returns the already-running error and leaves the whole state — configuration,
stored capture and running flag — exactly as it was. -/
theorem start_while_running_rejected (st : AppState) (env : CaptureEnv)
    (h : st.isRunning = true) :
    start_recognition st env =
      (st, Except.error "Recognition is already running") := by
  unfold start_recognition
  simp [h]

/-- Claim C4 witness: starting on a running state is rejected unchanged. -/
theorem start_while_running_rejected_witness :
    runningState.isRunning = true ∧
    start_recognition runningState envAllOk =
      (runningState, Except.error "Recognition is already running") :=
  ⟨rfl, start_while_running_rejected runningState envAllOk rfl⟩


/-- Claim C8: stopping with no session running is a no-op that returns
success — stop_recognition on a state with the running flag already false and
no stored capture returns Ok and leaves the state unchanged;
AudioCapture::stop with no capture thread joins nothing (its only write is
latching the stop flag, which the next start resets) and is idempotent; and
stop_recognition twice equals stop_recognition once. -/
theorem stop_is_idempotent_noop :
    (∀ st : AppState, st.isRunning = false → st.audioCapture = none →
      stop_recognition st = (st, Except.ok ())) ∧
    (∀ c : AudioCaptureM, c.captureThread = none →
      c.stop = ({ c with stopFlag := true }, [])) ∧
    (∀ c : AudioCaptureM, (c.stop.1).stop = (c.stop.1, [])) ∧
    (∀ st : AppState,
      stop_recognition (stop_recognition st).1 =
        ((stop_recognition st).1, Except.ok ())) := by
  refine ⟨?_, ?_, ?_, ?_⟩
  · intro st h1 h2
    cases st with
    | mk cfg cap run =>
      simp only [show (AppState.mk cfg cap run).isRunning = run from rfl] at h1
      simp only [show (AppState.mk cfg cap run).audioCapture = cap from rfl] at h2
      subst h1
      subst h2
      rfl
  · intro c hc
    unfold AudioCaptureM.stop
    rw [hc]
  · intro c
    cases hcc : c.captureThread with
    | none => simp [AudioCaptureM.stop, hcc]
    | some w => simp [AudioCaptureM.stop, hcc]
  · intro st
    cases st with
    | mk cfg cap run =>
      cases cap with
      | none => simp [stop_recognition]
      | some c => simp [stop_recognition]

/-- Claim C8 witness: stop on the idle state, stop of a never-started
capture, and a double stop. -/
theorem stop_is_idempotent_noop_witness :
    (idleState.isRunning = false ∧ idleState.audioCapture = none ∧
      stop_recognition idleState = (idleState, Except.ok ())) ∧
    (capNoThread.captureThread = none ∧
      capNoThread.stop = ({ capNoThread with stopFlag := true }, [])) ∧
    (capNoThread.stop.1).stop = (capNoThread.stop.1, []) ∧
    stop_recognition (stop_recognition runningState).1 =
      ((stop_recognition runningState).1, Except.ok ()) :=
  ⟨⟨rfl, rfl, stop_is_idempotent_noop.1 idleState rfl rfl⟩,
    ⟨rfl, stop_is_idempotent_noop.2.1 capNoThread rfl⟩,
    stop_is_idempotent_noop.2.2.1 capNoThread,
    stop_is_idempotent_noop.2.2.2 runningState⟩

/-- Claim C3: on a processed chunk whose recognizer result has the endpoint
flag set, writing last1 for the last emitted text after the text-emission
phase: if last1 is non-empty the step emits the non-final phase events
followed by exactly one final event carrying last1 (the locally tracked text,
not a re-read hypothesis), resets the recognizer and clears last text; if
last1 is empty the step emits no event at all and only resets. -/
theorem endpoint_rule (r : RecStep) (st : OrchState) (hep : r.isEndpoint = true) :
    ((emitNonFinal r.text st.lastText).2 ≠ "" →
      (orchStep r st).1 =
        (emitNonFinal r.text st.lastText).1 ++
          [⟨(emitNonFinal r.text st.lastText).2, true⟩] ∧
      (orchStep r st).1.filter (fun e => e.isFinal) =
        [⟨(emitNonFinal r.text st.lastText).2, true⟩] ∧
      (orchStep r st).2.lastText = "" ∧
      (orchStep r st).2.resets = st.resets + 1) ∧
    ((emitNonFinal r.text st.lastText).2 = "" →
      (orchStep r st).1 = [] ∧
      (orchStep r st).2.lastText = "" ∧
      (orchStep r st).2.resets = st.resets + 1) := by
  by_cases hc : r.text ≠ "" ∧ r.text ≠ st.lastText
  · have hE1 : emitNonFinal r.text st.lastText = ([⟨r.text, false⟩], r.text) := by
      unfold emitNonFinal
      rw [if_pos hc]
    have ho : orchStep r st =
        ([⟨r.text, false⟩] ++ [⟨r.text, true⟩], ⟨"", st.resets + 1⟩) := by
      simp [orchStep, hE1, hep, hc.1]
    constructor
    · intro hne
      rw [ho, hE1]
      refine ⟨rfl, ?_, rfl, rfl⟩
      simp [List.filter]
    · intro hz
      rw [hE1] at hz
      exact absurd hz hc.1
  · have hE1 : emitNonFinal r.text st.lastText = ([], st.lastText) := by
      unfold emitNonFinal
      rw [if_neg hc]
    by_cases hlt : st.lastText = ""
    · have ho : orchStep r st = ([], ⟨st.lastText, st.resets + 1⟩) := by
        simp only [orchStep]
        rw [hE1]
        simp [hep, hlt]
      constructor
      · intro hne
        rw [hE1] at hne
        exact absurd hlt hne
      · intro hz
        rw [ho]
        exact ⟨rfl, hlt, rfl⟩
    · have ho : orchStep r st =
          ([] ++ [⟨st.lastText, true⟩], ⟨"", st.resets + 1⟩) := by
        simp [orchStep, hE1, hep, hlt]
      constructor
      · intro hne
        rw [ho, hE1]
        refine ⟨rfl, ?_, rfl, rfl⟩
        simp [List.filter]
      · intro hz
        rw [hE1] at hz
        exact absurd hz hlt

/-- Claim C3 witness: the scripted scenario — the recognizer reports text hi
with the endpoint flag set starting from an empty last text: one non-final
event with hi, then one final event with hi, then a reset with last text
cleared. -/
theorem endpoint_rule_witness :
    (RecStep.mk "hi" true).isEndpoint = true ∧
    ((emitNonFinal "hi" "").2 ≠ "" →
      (orchStep ⟨"hi", true⟩ ⟨"", 0⟩).1 =
        (emitNonFinal "hi" "").1 ++ [⟨(emitNonFinal "hi" "").2, true⟩] ∧
      (orchStep ⟨"hi", true⟩ ⟨"", 0⟩).1.filter (fun e => e.isFinal) =
        [⟨(emitNonFinal "hi" "").2, true⟩] ∧
      (orchStep ⟨"hi", true⟩ ⟨"", 0⟩).2.lastText = "" ∧
      (orchStep ⟨"hi", true⟩ ⟨"", 0⟩).2.resets = 0 + 1) ∧
    ((emitNonFinal "hi" "").2 = "" →
      (orchStep ⟨"hi", true⟩ ⟨"", 0⟩).1 = [] ∧
      (orchStep ⟨"hi", true⟩ ⟨"", 0⟩).2.lastText = "" ∧
      (orchStep ⟨"hi", true⟩ ⟨"", 0⟩).2.resets = 0 + 1) :=
  ⟨rfl, endpoint_rule ⟨"hi", true⟩ ⟨"", 0⟩ rfl⟩

/-- Claim C5: on every processed chunk a non-final event is emitted exactly
when the hypothesis text is non-empty and differs from the last emitted
text; it carries that text, and the text-emission phase updates the last
emitted text to it; otherwise no non-final event is emitted and the phase
leaves the last emitted text unchanged (and, when no endpoint fires, the
step's final last text is exactly the phase's). -/
theorem text_emission_rule (r : RecStep) (st : OrchState) :
    ((r.text ≠ "" ∧ r.text ≠ st.lastText) →
      (orchStep r st).1.filter (fun e => !e.isFinal) = [⟨r.text, false⟩] ∧
      (emitNonFinal r.text st.lastText).2 = r.text) ∧
    (¬(r.text ≠ "" ∧ r.text ≠ st.lastText) →
      (orchStep r st).1.filter (fun e => !e.isFinal) = [] ∧
      (emitNonFinal r.text st.lastText).2 = st.lastText) ∧
    (r.isEndpoint = false →
      (orchStep r st).2.lastText = (emitNonFinal r.text st.lastText).2) := by
  refine ⟨?_, ?_, ?_⟩
  · intro hc
    have hE1 : emitNonFinal r.text st.lastText = ([⟨r.text, false⟩], r.text) := by
      unfold emitNonFinal
      rw [if_pos hc]
    refine ⟨?_, by rw [hE1]⟩
    cases hB : r.isEndpoint with
    | true => simp [orchStep, hE1, hB, hc.1, List.filter]
    | false => simp [orchStep, hE1, hB, List.filter]
  · intro hc
    have hE1 : emitNonFinal r.text st.lastText = ([], st.lastText) := by
      unfold emitNonFinal
      rw [if_neg hc]
    refine ⟨?_, by rw [hE1]⟩
    cases hB : r.isEndpoint with
    | true =>
      by_cases hlt : st.lastText = ""
      · simp only [orchStep]
        rw [hE1]
        simp [hB, hlt, List.filter]
      · simp only [orchStep]
        rw [hE1]
        simp [hB, hlt, List.filter]
    | false => simp [orchStep, hE1, hB, List.filter]
  · intro hB
    simp [orchStep, hB]

/-- Claim C5 witness: a fresh hypothesis hi over an empty last text emits one
non-final event with hi and updates the last text. -/
theorem text_emission_rule_witness :
    (orchStep ⟨"hi", false⟩ ⟨"", 0⟩).1.filter (fun e => !e.isFinal) =
        [⟨"hi", false⟩] ∧
      (emitNonFinal "hi" "").2 = "hi" :=
  (text_emission_rule ⟨"hi", false⟩ ⟨"", 0⟩).1 (by decide)


/-- Claim C2: no input sample is dropped or duplicated at chunk boundaries —
starting from a post-drain buffer (shorter than one chunk), feeding any
sequence of mono batches poll-by-poll and concatenating the sent outputs
equals feeding the whole concatenation at once (output truncated to the full
chunks available); the final buffer retains the excess (always shorter than
one chunk), and a concatenation shorter than one chunk is fully retained
with nothing sent. -/
theorem rate_conversion_chunk_boundary_correct {σ : Type} (n : Nat)
    (rOpt : Option (Resampler σ)) (ms : List (List ℚ)) (buf : List ℚ) (s : σ)
    (hbuf : buf.length < n) :
    feedPolls n rOpt ms buf s = sendLoop n rOpt (buf ++ ms.flatten) s ∧
    (feedPolls n rOpt ms buf s).2.1.length < n ∧
    ((buf ++ ms.flatten).length < n →
      feedPolls n rOpt ms buf s = ([], buf ++ ms.flatten, s)) := by
  have h0 : 0 < n := Nat.lt_of_le_of_lt (Nat.zero_le _) hbuf
  have heq := feedPolls_eq_concat n rOpt ms buf s hbuf
  refine ⟨heq, ?_, ?_⟩
  · rw [heq, sendLoop_eq_drain]
    exact drainChunks_rem_lt n _ h0
  · intro hlt
    rw [heq, sendLoop_of_not n rOpt _ s (by omega)]

/-- Claim C2 witness: three polls of sizes 1, 2, 2 through a toy fixed-input
converter starting from the empty buffer. -/
theorem rate_conversion_chunk_boundary_correct_witness :
    (([] : List ℚ).length < 2) ∧
    (feedPolls 2 (some sumResampler) pollsExample [] 0 =
        sendLoop 2 (some sumResampler) ([] ++ pollsExample.flatten) 0 ∧
      (feedPolls 2 (some sumResampler) pollsExample [] 0).2.1.length < 2 ∧
      (([] ++ pollsExample.flatten).length < 2 →
        feedPolls 2 (some sumResampler) pollsExample [] 0 =
          ([], [] ++ pollsExample.flatten, 0))) :=
  ⟨by decide,
    rate_conversion_chunk_boundary_correct 2 (some sumResampler) pollsExample
      [] 0 (by decide)⟩

/-- Claim C7: after appending a poll's mono samples, the drain loop removes
chunks of exactly the configured size, in order — the drained chunks
reassemble the buffer with nothing lost, duplicated or reordered — and
afterwards the buffer holds the remaining samples, fewer than one chunk,
which is exactly what the send loop leaves behind for the next poll. -/
theorem chunker_drains_exact_chunks (n : Nat) (buf : List ℚ) (h0 : 0 < n) :
    (∀ c ∈ (drainChunks n buf).1, c.length = n) ∧
    (drainChunks n buf).1.flatten ++ (drainChunks n buf).2 = buf ∧
    (drainChunks n buf).2.length < n ∧
    (∀ (σ : Type) (rOpt : Option (Resampler σ)) (s : σ),
      (sendLoop n rOpt buf s).2.1 = (drainChunks n buf).2) := by
  refine ⟨drainChunks_length n buf, drainChunks_flatten n buf,
    drainChunks_rem_lt n buf h0, ?_⟩
  intro σ rOpt s
  rw [sendLoop_eq_drain]

/-- Claim C7 witness: a three-sample buffer drained with chunk size two. -/
theorem chunker_drains_exact_chunks_witness :
    (0 < 2) ∧
    ((∀ c ∈ (drainChunks 2 chunkBufExample).1, c.length = 2) ∧
      (drainChunks 2 chunkBufExample).1.flatten ++
          (drainChunks 2 chunkBufExample).2 = chunkBufExample ∧
      (drainChunks 2 chunkBufExample).2.length < 2 ∧
      (∀ (σ : Type) (rOpt : Option (Resampler σ)) (s : σ),
        (sendLoop 2 rOpt chunkBufExample s).2.1 =
          (drainChunks 2 chunkBufExample).2)) :=
  ⟨by decide, chunker_drains_exact_chunks 2 chunkBufExample (by decide)⟩

/-- Claim C1 counterexample: with the default render endpoint unavailable the
device acquisition inside the spawned worker fails with the formatted error,
yet AudioCapture::start still returns Ok with the receiver, start_recognition
returns Ok, and the session is marked running — the failure is not returned
synchronously and a session is considered started. -/
theorem start_ok_despite_device_failure :
    captureLoopbackAcquire envDeviceFail.loopback 16000 =
        Except.error "Failed to get default audio endpoint: no device" ∧
    ((AudioCaptureM.newWithDevice 16000 CaptureMode.SystemAudio none).start
        envDeviceFail).2 = Except.ok () ∧
    (start_recognition idleState envDeviceFail).2 = Except.ok () ∧
    (start_recognition idleState envDeviceFail).1.isRunning = true :=
  ⟨rfl, rfl, rfl, rfl⟩

/-- Claim C1 (amended): AudioCapture::start spawns the capture worker and
returns Ok with the receiver unconditionally; a device-acquisition or
stream-start failure occurs asynchronously as the worker's result (where it
is only logged), and start_recognition still stores the capture and marks
the session running. -/
theorem start_failure_is_asynchronous :
    (∀ (c : AudioCaptureM) (env : CaptureEnv),
      (c.start env).2 = Except.ok () ∧
      (c.start env).1.captureThread =
        some (workerResult c.captureMode env c.targetSampleRate)) ∧
    (∀ (st : AppState) (env : CaptureEnv) (m : AsrModelConfig),
      st.isRunning = false → st.config.currentModel = some m →
      (start_recognition st env).2 = Except.ok () ∧
      (start_recognition st env).1.isRunning = true ∧
      (start_recognition st env).1.audioCapture.isSome = true) := by
  constructor
  · intro c env
    exact ⟨rfl, rfl⟩
  · intro st env m h1 h2
    unfold start_recognition
    simp [h1, h2, AudioCaptureM.start]

/-- Claim C1 (amended) witness: starting from the idle state in the
environment whose device acquisition fails. -/
theorem start_failure_is_asynchronous_witness :
    idleState.isRunning = false ∧
    idleState.config.currentModel = some defaultModel ∧
    ((start_recognition idleState envDeviceFail).2 = Except.ok () ∧
      (start_recognition idleState envDeviceFail).1.isRunning = true ∧
      (start_recognition idleState envDeviceFail).1.audioCapture.isSome = true) :=
  ⟨rfl, rfl,
    start_failure_is_asynchronous.2 idleState envDeviceFail defaultModel rfl rfl⟩


end LiveSubtitles
